import Mathlib

/-!
Shallow embedding of the mTRFpy temporal response function model
(`mtrf/model.py`, class `TRF`) over exact rationals.

Arrays are embedded as dimension records with total entry functions
(`Mat` for 2-D, `Tensor3` for 3-D numpy arrays); machine floats are
idealized as `ℚ`.  Python exceptions are modelled by the `PyErr` type:
a method that can raise returns an `Except PyErr` result, and `TRF.train`,
which mutates its object in place, returns the (possibly partially
updated) state together with an optional raised error.

The helper module `mtrf/matrices.py` and `mtrf/crossval.py` are imported
by `model.py` but are not part of the sources; the functions taken from
them (`lag_matrix`, `truncate`, `covariance_matrices`,
`regularization_matrix`, `banded_regularization_coefficients`, and
`cross_validate`) are modelled from the specification, as marked on each
definition.
-/

namespace MTRF

/-- Python exceptions raised (or propagated) by the code under analysis. -/
inductive PyErr
  | valueError (msg : String)
  | typeError (msg : String)
  | linAlgError
  | broadcastError
  | nameError (n : String)
  | zeroDivisionError
  deriving DecidableEq

/-- A 2-D numpy array over exact rationals: explicit dimensions plus a
total entry function (reads outside the dimensions are irrelevant). -/
structure Mat where
  rows : ℕ
  cols : ℕ
  entry : ℕ → ℕ → ℚ

/-- `np.zeros((r, c))`. -/
def Mat.zeros (r c : ℕ) : Mat := ⟨r, c, fun _ _ => 0⟩

/-- Elementwise sum of two equally-shaped arrays (`A + B`). -/
def Mat.add (A B : Mat) : Mat :=
  ⟨A.rows, A.cols, fun i j => A.entry i j + B.entry i j⟩

/-- Scalar multiple of an array (`q * A`, also `A / (1/q)`). -/
def Mat.smul (q : ℚ) (A : Mat) : Mat :=
  ⟨A.rows, A.cols, fun i j => q * A.entry i j⟩

/-- Elementwise (Hadamard) product of two equally-shaped arrays (`A * B`). -/
def Mat.hadamard (A B : Mat) : Mat :=
  ⟨A.rows, A.cols, fun i j => A.entry i j * B.entry i j⟩

/-- `A.T`. -/
def Mat.transpose (A : Mat) : Mat := ⟨A.cols, A.rows, fun i j => A.entry j i⟩

/-- Matrix product (`A @ B`). -/
def Mat.mul (A B : Mat) : Mat :=
  ⟨A.rows, B.cols, fun i j =>
    ((List.range A.cols).map (fun k => A.entry i k * B.entry k j)).sum⟩

/-- Stack two arrays vertically (`np.concatenate([A, B])`). -/
def Mat.vcat (A B : Mat) : Mat :=
  ⟨A.rows + B.rows, A.cols, fun i j =>
    if i < A.rows then A.entry i j else B.entry (i - A.rows) j⟩

/-- `np.count_nonzero(A - np.diag(np.diagonal(A))) > 0`: some off-diagonal
entry (within the array's bounds) is nonzero. -/
def Mat.offDiagNonzero (A : Mat) : Bool :=
  decide (∃ i, i < A.rows ∧ ∃ j, j < A.cols ∧ i ≠ j ∧ A.entry i j ≠ 0)

/-- Determinant by Laplace expansion along the first row, on an `n × n`
entry function. -/
def detAux : ℕ → (ℕ → ℕ → ℚ) → ℚ
  | 0, _ => 1
  | n + 1, f =>
    ((List.range (n + 1)).map (fun j =>
      (-1 : ℚ) ^ j * f 0 j *
        detAux n (fun r c => f (r + 1) (if c < j then c else c + 1)))).sum

/-- Determinant of a (square) array. -/
def Mat.det (A : Mat) : ℚ := detAux A.rows A.entry

/-- `np.linalg.inv`: `none` models the `LinAlgError` numpy raises on a
singular matrix; otherwise the inverse via the adjugate formula. -/
def Mat.inv (A : Mat) : Option Mat :=
  if A.det = 0 then none
  else some ⟨A.rows, A.rows, fun i j =>
    (-1 : ℚ) ^ (i + j) *
      detAux (A.rows - 1) (fun r c =>
        A.entry (if r < j then r else r + 1) (if c < i then c else c + 1)) / A.det⟩

/-- A 3-D numpy array (trials × samples × features). -/
structure Tensor3 where
  d0 : ℕ
  d1 : ℕ
  d2 : ℕ
  entry : ℕ → ℕ → ℕ → ℚ

/-- Slice out one trial (`T[t]`), a samples × features array. -/
def Tensor3.trial (T : Tensor3) (t : ℕ) : Mat :=
  ⟨T.d1, T.d2, fun i j => T.entry t i j⟩

/-- Elementwise sum of two equally-shaped 3-D arrays. -/
def Tensor3.add (A B : Tensor3) : Tensor3 :=
  ⟨A.d0, A.d1, A.d2, fun i j k => A.entry i j k + B.entry i j k⟩

/-- `np.reshape(M, (d0, d1, d2), order="F")` of a 2-D array `M`:
column-major (Fortran) unflattening, first target axis fastest-varying. -/
def reshape3F (d0 d1 d2 : ℕ) (M : Mat) : Tensor3 :=
  ⟨d0, d1, d2, fun i j k =>
    let f := i + d0 * j + d0 * d1 * k
    M.entry (f % M.rows) (f / M.rows)⟩

/-- `np.reshape(T, (r, c), order="F")` of a 3-D array `T`: column-major
flattening of the source, column-major filling of the target. -/
def reshape2F (r c : ℕ) (T : Tensor3) : Mat :=
  ⟨r, c, fun i j =>
    let f := i + r * j
    T.entry (f % T.d0) (f / T.d0 % T.d1) (f / (T.d0 * T.d1))⟩

/-- `list(range(lo, hi + 1))` over the integers. -/
def lagListZ (lo hi : ℤ) : List ℤ :=
  (List.range (hi + 1 - lo).toNat).map (fun k => lo + (k : ℤ))

/-- `np.argmax` over a list: index of the first occurrence of the maximum
(0 on an empty list). -/
def argmaxFirst : List ℚ → ℕ
  | [] => 0
  | [_] => 0
  | x :: y :: ys =>
    let j := argmaxFirst (y :: ys)
    if x < (y :: ys).getD j 0 then j + 1 else 0

/-- Value of the Python `bias` attribute: the constructor stores the
boolean bias-inclusion flag, and `train` overwrites it with the fitted
bias row (a 1 × n_output_features array). -/
inductive BiasV
  | flag (b : Bool)
  | arr (m : Mat)

/-- A regularization parameter as passed to `train`: a scalar lambda or a
full (banded-mode) penalty matrix. -/
inductive RegV
  | scalar (q : ℚ)
  | matrix (m : Mat)

/-- The regularization argument of `fit`: a single value or a list of
scalar candidates. -/
inductive RegParam
  | single (r : RegV)
  | list (rs : List ℚ)

/-- The mutable state of a `TRF` instance (`TRF.__init__`, model.py
lines 55-78). -/
structure TRF where
  weights : Option Tensor3
  bias : BiasV
  times : Option (List ℚ)
  fs : Option ℚ
  regularization : Option RegV
  direction : ℤ
  kind : String
  zeropad : Bool
  method : String

/-- `TRF.__init__`: validation of `direction`, `kind` and `method`
(`zeropad` is a `Bool` by typing, so its `isinstance` check always
passes), then the initial empty state. -/
def TRF.init (direction : ℤ) (kind : String) (zeropad : Bool) (bias : Bool)
    (method : String) : Except PyErr TRF :=
  if ¬(direction = 1 ∨ direction = -1) then
    .error (.valueError "Parameter direction must be either 1 or -1!")
  else if ¬(kind = "multi" ∨ kind = "single") then
    .error (.valueError "Paramter kind must be either multi or single!")
  else if ¬(method = "ridge" ∨ method = "tikhonov" ∨ method = "banded") then
    .error (.valueError "Method must be either ridge, tikhonov or banded!")
  else
    .ok ⟨none, .flag bias, none, none, none, direction, kind, zeropad, method⟩

/-- The default-constructed model `TRF()`. -/
def trfDefault : TRF :=
  ⟨none, .flag true, none, none, none, 1, "multi", true, "ridge"⟩

/-- Modelled from the spec: `mtrf.matrices.lag_matrix` is not in the
sources.  Spec 4.1: expand a 2-D series (samples × features) into a
time-lagged design matrix; each lag in the ordered list contributes a
features-wide block (features fastest-varying), a leading constant column
of ones carries the bias term; with zero-padding, out-of-range positions
are zero and the row count is preserved; without it, the rows lacking a
full lag window are dropped, leaving `rows - (max_lag - min_lag)` rows. -/
def lag_matrix (x : Mat) (lags : List ℤ) (zeropad : Bool) : Mat :=
  let l0 := lags.headD 0
  let l1 := lags.getLastD 0
  let nOut : ℕ := if zeropad then x.rows else x.rows - (l1 - l0).toNat
  let off : ℤ := if zeropad then 0 else max l1 0
  ⟨nOut, 1 + x.cols * lags.length, fun t c =>
    if c = 0 then 1
    else
      let li := (c - 1) / x.cols
      let fi := (c - 1) % x.cols
      let src : ℤ := (t : ℤ) + off - lags.getD li 0
      if 0 ≤ src ∧ src < (x.rows : ℤ) then x.entry src.toNat fi else 0⟩

/-- Modelled from the spec: `mtrf.matrices.truncate` is not in the
sources.  Spec 4.1/4.2: drop from a target series exactly the rows the
lag-matrix builder dropped, using the same lag-dependent offset. -/
def truncate (y : Mat) (l0 l1 : ℤ) : Mat :=
  ⟨y.rows - (l1 - l0).toNat, y.cols, fun t j =>
    y.entry (t + (max l1 0).toNat) j⟩

/-- Modelled from the spec: `mtrf.matrices.covariance_matrices` is not in
the sources.  Spec 4.2: build the lagged design matrix `X` for one
trial's input and return `cov_xx = Xᵗ·X` and `cov_xy = Xᵗ·Y`, with the
output truncated to the surviving rows when zero-padding is off.  The
`bias` argument is taken from the call site in `TRF.train`; per spec 4.1
the constant bias column is always prepended, so it is not consulted. -/
def covariance_matrices (x y : Mat) (lags : List ℤ) (zeropad : Bool)
    (bias : BiasV) : Mat × Mat :=
  let X := lag_matrix x lags zeropad
  let Y := if zeropad then y else truncate y (lags.headD 0) (lags.getLastD 0)
  (X.transpose.mul X, X.transpose.mul Y)

/-- Modelled from the spec: `mtrf.matrices.regularization_matrix` is not
in the sources.  Spec 4.3: a square penalty matrix of the given size
whose bias row/column is zero; identity-like for ridge (and for the
banded method, whose per-band coefficients arrive as a separate matrix
factor), a second-difference operator with adjusted boundary diagonal for
tikhonov. -/
def regularization_matrix (size : ℕ) (method : String) : Mat :=
  if method = "tikhonov" then
    ⟨size, size, fun i j =>
      if i = 0 ∨ j = 0 then 0
      else if i = j then (if i = 1 ∨ i = size - 1 then 1 else 2)
      else if (i : ℤ) - (j : ℤ) = 1 ∨ (j : ℤ) - (i : ℤ) = 1 then -1
      else 0⟩
  else ⟨size, size, fun i j => if i = j ∧ i ≠ 0 then 1 else 0⟩

/-- Band index of a flat feature index under a feature partition
(spec 4.3: the stimulus features split into contiguous bands). -/
def bandOf : List ℕ → ℕ → ℕ
  | [], _ => 0
  | f :: rest, fi => if fi < f then 0 else bandOf rest (fi - f) + 1

/-- Modelled from the spec:
`mtrf.matrices.banded_regularization_coefficients` is not in the sources.
Spec 4.3 (banded variant): a diagonal block matrix sized
`1 + n_features·n_lags` whose bias entry is zero and whose diagonal
entry for a lagged feature carries the first coefficient of the pair on
the first band and the second coefficient elsewhere. -/
def banded_regularization_coefficients (nLags : ℕ) (c : ℚ × ℚ)
    (features : List ℕ) (bias : BiasV) : Mat :=
  let nF := features.sum
  let size := 1 + nF * nLags
  ⟨size, size, fun i j =>
    if i = j ∧ i ≠ 0 then
      (if bandOf features ((i - 1) % nF) = 0 then c.1 else c.2)
    else 0⟩

/-- model.py lines 219-227: the integer lag bounds derived inside
`TRF.train` — for a backward model the time bounds are first replaced by
`(-tmax, -tmin)`, then the floor/ceil window is taken. -/
def trainLagBounds (direction : ℤ) (tmin tmax fs : ℚ) : ℤ × ℤ :=
  let p := if direction = -1 then (-tmax, -tmin) else (tmin, tmax)
  (⌊p.1 * fs⌋, ⌈p.2 * fs⌉)

/-- The lag list `list(range(int(np.floor(tmin*fs)), int(np.ceil(tmax*fs)) + 1))`
built by `TRF.train` (model.py line 227), after the direction swap. -/
def trainLags (direction : ℤ) (tmin tmax fs : ℚ) : List ℤ :=
  lagListZ (trainLagBounds direction tmin tmax fs).1
    (trainLagBounds direction tmin tmax fs).2

/-- model.py lines 217-235: the per-trial covariance loop of `TRF.train`.
Starting from the integer `0`, each trial's `cov_xx`/`cov_xy` pair is
added (so the accumulator takes the first trial's shape), and the totals
are divided by the trial count `stimulus.shape[0]`. -/
def trainCov (bias : BiasV) (zeropad : Bool) (direction : ℤ)
    (stimulus response : Tensor3) (fs tmin tmax : ℚ) : Mat × Mat :=
  let lags := trainLags direction tmin tmax fs
  let xs := if direction = 1 then stimulus else response
  let ys := if direction = 1 then response else stimulus
  let covs := (List.range stimulus.d0).map (fun t =>
    covariance_matrices (xs.trial t) (ys.trial t) lags zeropad bias)
  let acc := covs.tail.foldl (fun a c => (a.1.add c.1, a.2.add c.2))
    (covs.headD (Mat.zeros 0 0, Mat.zeros 0 0))
  (Mat.smul (1 / (stimulus.d0 : ℚ)) acc.1,
   Mat.smul (1 / (stimulus.d0 : ℚ)) acc.2)

/-- model.py line 206: a matrix-valued regularization parameter with a
nonzero off-diagonal entry is rejected. -/
def regNonDiagonal : RegV → Bool
  | .scalar _ => false
  | .matrix m => m.offDiagNonzero

/-- model.py lines 236-239: scale the regularization matrix by
`regularization / delta` (elementwise for a banded penalty matrix) and
solve the normal equations,
`weight_matrix = inv(cov_xx + regmat) @ cov_xy / delta`; `none` models
the propagated `LinAlgError` on a singular system. -/
def trainWeightMatrix (s : TRF) (stimulus response : Tensor3)
    (fs tmin tmax : ℚ) (regularization : RegV) : Option Mat :=
  let cov := trainCov s.bias s.zeropad s.direction stimulus response fs tmin tmax
  let delta : ℚ := 1 / fs
  let regmat0 := regularization_matrix cov.1.cols s.method
  let regmat := match regularization with
    | .scalar q => Mat.smul (q / delta) regmat0
    | .matrix m => regmat0.hadamard (Mat.smul (1 / delta) m)
  ((cov.1.add regmat).inv).map (fun M => Mat.smul (1 / delta) (M.mul cov.2))

/-- `TRF.train` (model.py lines 187-245) on trial-structured (rank-3)
data.  Mirrors the source's mutation order: the diagonality check on a
matrix-valued regularization fires before any field is written;
`self.fs` and `self.regularization` are assigned next (lines 215-216);
the covariance loop, the solve, and only then the writes of `bias`,
`weights` and `times`.  A raised error is returned alongside the state
the object holds at that point.  With zero trials the integer
accumulator reaches `cov_xx /= 0`, a `ZeroDivisionError`. -/
def TRF.train (s : TRF) (stimulus response : Tensor3) (fs tmin tmax : ℚ)
    (regularization : RegV) : TRF × Option PyErr :=
  if regNonDiagonal regularization then
    (s, some (.valueError
      "Regularization parameter must be a single number or a diagonal matrix!"))
  else
    let s1 := { s with fs := some fs, regularization := some regularization }
    if stimulus.d0 = 0 then (s1, some .zeroDivisionError)
    else
      match trainWeightMatrix s stimulus response fs tmin tmax regularization with
      | none => (s1, some .linAlgError)
      | some W =>
        let lags := trainLags s.direction tmin tmax fs
        let nX := (if s.direction = 1 then stimulus else response).d2
        let nY := (if s.direction = 1 then response else stimulus).d2
        ({ s1 with
            bias := .arr ⟨1, W.cols, fun i j => W.entry i j⟩,
            weights := some (reshape3F nX lags.length nY
              ⟨W.rows - 1, W.cols, fun i j => W.entry (i + 1) j⟩),
            times := some (lags.map (fun l => (l : ℚ) / fs)),
            fs := some fs }, none)

/-- model.py line 149: the shape guard at the top of `TRF.fit`,
`if not stimulus.ndim == 3 and response.ndim == 3:` — by Python operator
precedence this parses as `(not (stimulus.ndim == 3)) and (response.ndim == 3)`,
so the `ValueError` fires exactly when the stimulus is not rank-3 while
the response is rank-3. -/
def fitShapeCheckRaises (stim_ndim resp_ndim : ℕ) : Bool :=
  (!(stim_ndim == 3)) && (resp_ndim == 3)

/-- `list(product(regularization, repeat=2))`: the ordered Cartesian
square of the candidate list. -/
def listProd (a b : List ℚ) : List (ℚ × ℚ) :=
  a.flatMap (fun x => b.map (fun y => (x, y)))

/-- `TRF.fit` (model.py lines 102-185) on rank-3 data (so the line-149
shape guard, `fitShapeCheckRaises`, passes by typing).  `cross_validate`
lives in `mtrf/crossval.py`, which is not in the sources; it is
abstracted as the function argument `cv` returning the
(correlation, error) pair for one regularization candidate, so every
theorem below holds for an arbitrary cross-validator.  In banded mode
the candidate list is first expanded into penalty matrices over the
Cartesian square of the coefficients (lines 155-166); a scalar candidate
path delegates straight to `train` and returns `None` (modelled as the
`none` payload); the list path records each candidate's scores, picks
`np.argmax(correlation)` (first maximum), retrains on the full data with
the winner and returns both score arrays. -/
def TRF.fit (cv : RegV → ℚ × ℚ) (s : TRF) (stimulus response : Tensor3)
    (fs tmin tmax : ℚ) (regularization : RegParam)
    (features : Option (List ℕ)) :
    Except PyErr (TRF × Option (List ℚ × List ℚ)) :=
  if s.method = "banded" ∧ features.isNone then
    .error (.valueError "Must provide feature sizes when using banded ridge regression!")
  else
    match regularization with
    | .single r =>
      if s.method = "banded" then
        .error (.typeError "product requires an iterable regularization")
      else
        match TRF.train s stimulus response fs tmin tmax r with
        | (s', none) => .ok (s', none)
        | (_, some e) => .error e
    | .list rs =>
      let cands : List RegV :=
        if s.method = "banded" then
          let nLags := (⌈tmax * fs⌉ - ⌊tmin * fs⌋ + 1).toNat
          (listProd rs rs).map (fun c => RegV.matrix
            (banded_regularization_coefficients nLags c (features.getD []) s.bias))
        else rs.map RegV.scalar
      let pairs := cands.map cv
      let correlation := pairs.map Prod.fst
      let err := pairs.map Prod.snd
      let winner := cands.getD (argmaxFirst correlation) (RegV.scalar 0)
      match TRF.train s stimulus response fs tmin tmax winner with
      | (s', none) => .ok (s', some (correlation, err))
      | (_, some e) => .error e

/-- `TRF.predict` (model.py lines 247-385) for the prediction-only path
(no ground-truth output supplied, default `lag`/`feature` selectors, so
the subsetting branches are skipped).  The direction-required input is
mandatory; per trial the weights are flattened back (column-major), the
bias row is prepended and scaled by the sampling interval, the lag
matrix of the input is built and multiplied.  The result list models the
preallocated `np.zeros(input.shape[:2] + (weights.shape[-1],))` buffer:
numpy's assignment `prediction[i_trial] = y_pred` (line 375) fails with
a broadcast `ValueError` unless `y_pred` has exactly the preallocated
`(samples, n_out)` shape.  A singleton result list models the squeezed
single-trial output. -/
def TRF.predict (s : TRF) (stimulus response : Option Tensor3) :
    Except PyErr (List Mat) :=
  match s.weights with
  | none => .error (.valueError "Can't make predictions with an untrained model!")
  | some w =>
    if s.direction = 1 ∧ stimulus.isNone then
      .error (.valueError "Need stimulus to predict with a forward model!")
    else if s.direction = -1 ∧ response.isNone then
      .error (.valueError "Need response to predict with a backward model!")
    else
      match s.times, s.fs with
      | some times, some fs =>
        match s.bias with
        | .flag _ => .error (.valueError "cannot concatenate the unfitted bias flag")
        | .arr biasM =>
          let x3 := (if s.direction = 1 then stimulus else response).getD ⟨0, 0, 0, fun _ _ _ => 0⟩
          let lags := lagListZ ⌊times.headD 0 * fs⌋ ⌈times.getLastD 0 * fs⌉
          let delta : ℚ := 1 / fs
          let preds := (List.range x3.d0).map (fun t =>
            let x := x3.trial t
            let wFlat := reshape2F (x.cols * lags.length) w.d2 w
            let wFull := Mat.smul delta (biasM.vcat wFlat)
            (lag_matrix x lags s.zeropad).mul wFull)
          if preds.all (fun m => m.rows == x3.d1 && m.cols == w.d2) then
            .ok preds
          else .error .broadcastError
      | _, _ => .error (.valueError "model times or sampling rate not set")

/-- `TRF.__add__` (model.py lines 86-94).  The `isinstance` check passes
by typing.  Line 89 reads
`if not (self.direction == trf.direction) and (self.kind == trf.kind):`
which by Python precedence raises exactly when the directions differ and
the kinds agree.  Otherwise a copy of the left operand gets the
elementwise sums `weights + weights` and `bias + bias`; an untrained
operand (`None` weights, or a still-boolean bias) makes the `+=` on
line 92/93 raise a `TypeError`. -/
def TRF.add (self trf : TRF) : Except PyErr TRF :=
  if (¬(self.direction = trf.direction)) ∧ (self.kind = trf.kind) then
    .error (.valueError "Added TRFs must be of same kind and direction!")
  else
    match self.weights, trf.weights, self.bias, trf.bias with
    | some w1, some w2, .arr b1, .arr b2 =>
      .ok { self with weights := some (w1.add w2), bias := .arr (b1.add b2) }
    | _, _, _, _ => .error (.typeError "unsupported operand type for +=")

/-- `TRF.plot_topography` (model.py lines 488-498) with the availability
of the optional `mne` dependency made explicit.  When the import fails
the except-branch prints a notice, but control then falls through to the
unconditional `plot_topomap(weights, info)` call on line 498, where the
name `plot_topomap` was never bound — a `NameError`.  The result pairs
the printed lines with the raised error, if any. -/
def TRF.plot_topography (mneAvailable : Bool) (s : TRF) :
    List String × Except PyErr Unit :=
  if mneAvailable then ([], .ok ())
  else (["Topographical plots require MNE-Python!"], .error (.nameError "plot_topomap"))

lemma argmaxFirst_lt_length : ∀ l : List ℚ, l ≠ [] → argmaxFirst l < l.length := by
  intro l
  induction l with
  | nil => simp
  | cons x xs ih =>
    cases xs with
    | nil => intro _; simp [argmaxFirst]
    | cons y ys =>
      intro _
      simp only [argmaxFirst]
      split
      · exact Nat.succ_lt_succ (ih (by simp))
      · simp

lemma argmaxFirst_max : ∀ (l : List ℚ) (j : ℕ), j < l.length →
    l.getD j 0 ≤ l.getD (argmaxFirst l) 0 := by
  intro l
  induction l with
  | nil => simp
  | cons x xs ih =>
    cases xs with
    | nil =>
      intro j hj
      cases j with
      | zero => simp [argmaxFirst]
      | succ n => simp at hj
    | cons y ys =>
      intro j hj
      by_cases hx : x < (y :: ys).getD (argmaxFirst (y :: ys)) 0
      · simp only [argmaxFirst, if_pos hx]
        cases j with
        | zero =>
          simp only [List.getD_cons_zero, List.getD_cons_succ]
          exact le_of_lt hx
        | succ n =>
          simp only [List.getD_cons_succ]
          exact ih n (by simpa using hj)
      · simp only [argmaxFirst, if_neg hx]
        cases j with
        | zero => simp
        | succ n =>
          simp only [List.getD_cons_succ, List.getD_cons_zero]
          exact le_trans (ih n (by simpa using hj)) (le_of_not_lt hx)

lemma argmaxFirst_strict : ∀ (l : List ℚ) (j : ℕ), j < argmaxFirst l →
    l.getD j 0 < l.getD (argmaxFirst l) 0 := by
  intro l
  induction l with
  | nil => simp [argmaxFirst]
  | cons x xs ih =>
    cases xs with
    | nil => simp [argmaxFirst]
    | cons y ys =>
      intro j hj
      by_cases hx : x < (y :: ys).getD (argmaxFirst (y :: ys)) 0
      · simp only [argmaxFirst, if_pos hx] at hj ⊢
        cases j with
        | zero => simpa using hx
        | succ n =>
          simp only [List.getD_cons_succ]
          exact ih n (by omega)
      · simp only [argmaxFirst, if_neg hx] at hj
        omega

lemma foldl_addPair_entry : ∀ (l : List (Mat × Mat)) (a : Mat × Mat) (i j : ℕ),
    ((l.foldl (fun a c => (a.1.add c.1, a.2.add c.2)) a).1.entry i j =
      a.1.entry i j + (l.map (fun c => c.1.entry i j)).sum) ∧
    ((l.foldl (fun a c => (a.1.add c.1, a.2.add c.2)) a).2.entry i j =
      a.2.entry i j + (l.map (fun c => c.2.entry i j)).sum) := by
  intro l
  induction l with
  | nil => simp
  | cons c cs ih =>
    intro a i j
    simp only [List.foldl_cons, List.map_cons, List.sum_cons]
    constructor
    · rw [(ih _ i j).1]
      simp [Mat.add]
      ring
    · rw [(ih _ i j).2]
      simp [Mat.add]
      ring

lemma foldl_addPair_dims : ∀ (l : List (Mat × Mat)) (a : Mat × Mat),
    ((l.foldl (fun a c => (a.1.add c.1, a.2.add c.2)) a).1.rows = a.1.rows ∧
     (l.foldl (fun a c => (a.1.add c.1, a.2.add c.2)) a).1.cols = a.1.cols) ∧
    ((l.foldl (fun a c => (a.1.add c.1, a.2.add c.2)) a).2.rows = a.2.rows ∧
     (l.foldl (fun a c => (a.1.add c.1, a.2.add c.2)) a).2.cols = a.2.cols) := by
  intro l
  induction l with
  | nil => simp
  | cons c cs ih =>
    intro a
    simp only [List.foldl_cons]
    exact ih _


/-- A trained-looking TRF state used as a concrete operand in theorems
about `TRF.__add__` and `TRF.plot_topography`. -/
def trfTrained : TRF :=
  ⟨some ⟨1, 1, 1, fun _ _ _ => 2⟩, .arr ⟨1, 1, fun _ _ => 1⟩, some [0],
    some 1, some (.scalar 1), 1, "multi", true, "ridge"⟩

/-- Same trained state with `kind = "single"`. -/
def trfTrainedSingle : TRF := { trfTrained with kind := "single" }

/-- Same trained state with `direction = -1`. -/
def trfTrainedBack : TRF := { trfTrained with direction := -1 }

/-- C3: `TRF.train` derives the lag window `[floor(tmin*fs), ceil(tmax*fs)]`
for the forward direction, and for the backward direction exactly the
negation-and-swap `[-ceil(tmax*fs), -floor(tmin*fs)]` of the forward
window. -/
theorem train_lag_window_directional (tmin tmax fs : ℚ) :
    trainLagBounds 1 tmin tmax fs = (⌊tmin * fs⌋, ⌈tmax * fs⌉) ∧
    trainLagBounds (-1) tmin tmax fs = (-⌈tmax * fs⌉, -⌊tmin * fs⌋) := by
  constructor
  · simp [trainLagBounds]
  · simp [trainLagBounds, neg_mul, Int.floor_neg, Int.ceil_neg]

/-- Witness for C3 at tmin = 1, tmax = 2, fs = 1. -/
theorem train_lag_window_directional_w :
    trainLagBounds 1 1 2 1 = (1, 2) ∧ trainLagBounds (-1) 1 2 1 = (-2, -1) := by
  have h := train_lag_window_directional 1 2 1
  rw [h.1, h.2]
  norm_num

/-- C7: the rank guard of `TRF.fit` does not raise whenever one input is
not rank-3 — due to the precedence of `not` in
`not stimulus.ndim == 3 and response.ndim == 3` it stays silent for a
rank-3 stimulus with a rank-2 response (and for two rank-2 inputs), and
fires only when the stimulus is non-rank-3 while the response is
rank-3. -/
theorem fit_shape_guard_misses_nonrank3_response :
    fitShapeCheckRaises 3 2 = false ∧ (2 : ℕ) ≠ 3 ∧
    fitShapeCheckRaises 2 2 = false ∧ fitShapeCheckRaises 2 3 = true := by
  decide

/-- C8: `TRF.__add__` raises for operands differing only in direction, but
— because `not (self.direction == trf.direction) and (self.kind == trf.kind)`
binds `not` to the first comparison only — silently adds operands whose
kinds differ (same direction), and also operands differing in both kind
and direction. -/
theorem add_guard_misses_kind_mismatch :
    TRF.add trfTrained trfTrainedBack =
      .error (.valueError "Added TRFs must be of same kind and direction!") ∧
    (∃ s', TRF.add trfTrained trfTrainedSingle = .ok s') ∧
    (∃ s', TRF.add trfTrainedBack trfTrainedSingle = .ok s') := by
  refine ⟨rfl, ⟨_, rfl⟩, ⟨_, rfl⟩⟩

/-- C9: with the optional `mne` dependency absent, `TRF.plot_topography`
prints the notice but then still raises: the `except ImportError` branch
does not return, and the following `plot_topomap(weights, info)` call
hits an unbound name. -/
theorem plot_topography_absent_mne_raises :
    TRF.plot_topography false trfTrained =
      (["Topographical plots require MNE-Python!"],
        .error (.nameError "plot_topomap")) := rfl


/-- One trial of one sample of one all-zero feature: with zero
regularization the normal-equation system is singular, so `train` raises
a `LinAlgError`. -/
def zStim : Tensor3 := ⟨1, 1, 1, fun _ _ _ => 0⟩

/-- A non-diagonal 2 × 2 regularization matrix. -/
def nonDiagM : Mat := ⟨2, 2, fun i j => if i = j then 0 else 1⟩

/-- Evaluation of the singular `train` call: it raises `LinAlgError` and
leaves behind `fs = 1`. -/
lemma zTrain_eval :
    (TRF.train trfDefault zStim zStim 1 0 0 (RegV.scalar 0)).2 = some PyErr.linAlgError ∧
    (TRF.train trfDefault zStim zStim 1 0 0 (RegV.scalar 0)).1.fs = some 1 := by
  norm_num +decide [TRF.train, trainWeightMatrix, trainCov, trainLags, trainLagBounds,
    lagListZ, covariance_matrices, lag_matrix, truncate, Mat.mul, Mat.add,
    Mat.transpose, Mat.smul, Mat.det, detAux, Mat.inv, regularization_matrix,
    regNonDiagonal, Tensor3.trial, Mat.zeros, List.range_succ, zStim,
    trfDefault, Option.map, List.foldl]

/-- C6 counterexample: a `TRF.train` call that raises (a propagated
linear-algebra failure on a singular system under zero regularization)
nevertheless changes the model's `fs` field, which was written before
the solve. -/
theorem train_failure_mutates_fs :
    (TRF.train trfDefault zStim zStim 1 0 0 (RegV.scalar 0)).2 ≠ none ∧
    (TRF.train trfDefault zStim zStim 1 0 0 (RegV.scalar 0)).1.fs ≠ trfDefault.fs := by
  refine ⟨?_, ?_⟩
  · rw [zTrain_eval.1]; simp
  · rw [zTrain_eval.2]; simp [trfDefault]

/-- C6 (amended): the non-diagonal-regularization error is raised before
any field is written; on any raising call the result fields `weights`,
`bias` and `times` are unchanged (they are written only after the full
computation succeeds); but `fs` and `regularization` are assigned before
the computation, so every call that passes the diagonality check — even
one that subsequently raises — updates them. -/
theorem train_partial_mutation (s : TRF) (stim resp : Tensor3)
    (fs tmin tmax : ℚ) (reg : RegV) :
    (regNonDiagonal reg = true →
      TRF.train s stim resp fs tmin tmax reg =
        (s, some (.valueError
          "Regularization parameter must be a single number or a diagonal matrix!"))) ∧
    ((TRF.train s stim resp fs tmin tmax reg).2 ≠ none →
      (TRF.train s stim resp fs tmin tmax reg).1.weights = s.weights ∧
      (TRF.train s stim resp fs tmin tmax reg).1.bias = s.bias ∧
      (TRF.train s stim resp fs tmin tmax reg).1.times = s.times) ∧
    (regNonDiagonal reg = false →
      (TRF.train s stim resp fs tmin tmax reg).1.fs = some fs ∧
      (TRF.train s stim resp fs tmin tmax reg).1.regularization = some reg) := by
  by_cases hd : regNonDiagonal reg
  · simp [TRF.train, hd]
  · simp only [Bool.not_eq_true] at hd
    simp only [TRF.train, hd, Bool.false_eq_true, if_false]
    by_cases h0 : stim.d0 = 0
    · simp [h0]
    · simp only [h0, if_false]
      match hW : trainWeightMatrix s stim resp fs tmin tmax reg with
      | none => simp
      | some W => simp

/-- Witness for the amended C6 theorem: the diagonality error leaves the
default model untouched, and the raising singular call leaves `weights`,
`bias` and `times` untouched. -/
theorem train_partial_mutation_w :
    regNonDiagonal (RegV.matrix nonDiagM) = true ∧
    TRF.train trfDefault zStim zStim 1 0 0 (RegV.matrix nonDiagM) =
      (trfDefault, some (.valueError
        "Regularization parameter must be a single number or a diagonal matrix!")) ∧
    ((TRF.train trfDefault zStim zStim 1 0 0 (RegV.scalar 0)).2 ≠ none ∧
      (TRF.train trfDefault zStim zStim 1 0 0 (RegV.scalar 0)).1.weights = trfDefault.weights ∧
      (TRF.train trfDefault zStim zStim 1 0 0 (RegV.scalar 0)).1.bias = trfDefault.bias ∧
      (TRF.train trfDefault zStim zStim 1 0 0 (RegV.scalar 0)).1.times = trfDefault.times) := by
  have hnd : regNonDiagonal (RegV.matrix nonDiagM) = true := by
    simp only [regNonDiagonal, Mat.offDiagNonzero, decide_eq_true_eq, nonDiagM]
    exact ⟨0, by norm_num, 1, by norm_num, by norm_num, by norm_num⟩
  have he : (TRF.train trfDefault zStim zStim 1 0 0 (RegV.scalar 0)).2 ≠ none := by
    rw [zTrain_eval.1]; simp
  refine ⟨hnd, (train_partial_mutation trfDefault zStim zStim 1 0 0
      (RegV.matrix nonDiagM)).1 hnd, he,
    (train_partial_mutation trfDefault zStim zStim 1 0 0 (RegV.scalar 0)).2.1 he⟩

lemma trainCov_xy_cols (bias : BiasV) (zp : Bool) (dir : ℤ)
    (stim resp : Tensor3) (fs tmin tmax : ℚ) (h0 : stim.d0 ≠ 0) :
    (trainCov bias zp dir stim resp fs tmin tmax).2.cols =
      (if dir = 1 then resp else stim).d2 := by
  unfold trainCov
  obtain ⟨n, hn⟩ : ∃ n, stim.d0 = n + 1 := ⟨stim.d0 - 1, by omega⟩
  rw [hn, List.range_succ_eq_map]
  simp only [List.map_cons, List.headD_cons, List.tail_cons, Mat.smul]
  rw [(foldl_addPair_dims _ _).2.2]
  simp only [covariance_matrices, Mat.mul, Mat.transpose, Tensor3.trial]
  split <;> simp [truncate]

/-- C2: a successful `TRF.train` stores a weight tensor whose first axis
length is the stimulus feature count and whose last axis length is the
response feature count for a forward model, swapped for a backward
model, with one middle-axis entry per lag. -/
theorem train_weights_shape (s : TRF) (stim resp : Tensor3)
    (fs tmin tmax : ℚ) (reg : RegV)
    (h : (TRF.train s stim resp fs tmin tmax reg).2 = none) :
    ∃ w, (TRF.train s stim resp fs tmin tmax reg).1.weights = some w ∧
      w.d1 = (trainLags s.direction tmin tmax fs).length ∧
      (s.direction = 1 → w.d0 = stim.d2 ∧ w.d2 = resp.d2) ∧
      (s.direction = -1 → w.d0 = resp.d2 ∧ w.d2 = stim.d2) := by
  by_cases hd : regNonDiagonal reg
  · simp [TRF.train, hd] at h
  · simp only [Bool.not_eq_true] at hd
    simp only [TRF.train, hd, Bool.false_eq_true, if_false] at h ⊢
    by_cases h0 : stim.d0 = 0
    · simp [h0] at h
    · simp only [h0, if_false] at h ⊢
      rcases hW : trainWeightMatrix s stim resp fs tmin tmax reg with _ | W
      · rw [hW] at h; simp at h
      · refine ⟨_, rfl, rfl, ?_, ?_⟩
        · intro h1
          rw [h1]
          constructor <;> simp [reshape3F]
        · intro h1
          rw [h1]
          constructor <;> norm_num [reshape3F]

/-- C10: a successful `TRF.train` overwrites the `bias` attribute with
the first row of the solved weight matrix — a 1 × n_output_features
array, no longer the boolean flag set at construction — and every
subsequent covariance accumulation on the same instance therefore
receives this fitted array as its bias argument. -/
theorem train_bias_overwritten (s : TRF) (stim resp : Tensor3)
    (fs tmin tmax : ℚ) (reg : RegV)
    (h : (TRF.train s stim resp fs tmin tmax reg).2 = none) :
    ∃ W, trainWeightMatrix s stim resp fs tmin tmax reg = some W ∧
      (TRF.train s stim resp fs tmin tmax reg).1.bias =
        BiasV.arr ⟨1, W.cols, fun i j => W.entry i j⟩ ∧
      W.cols = (if s.direction = 1 then resp else stim).d2 ∧
      (∀ b : Bool, (TRF.train s stim resp fs tmin tmax reg).1.bias ≠ BiasV.flag b) ∧
      (∀ (stim2 resp2 : Tensor3) (fs2 tmin2 tmax2 : ℚ),
        trainCov (TRF.train s stim resp fs tmin tmax reg).1.bias
            (TRF.train s stim resp fs tmin tmax reg).1.zeropad
            (TRF.train s stim resp fs tmin tmax reg).1.direction
            stim2 resp2 fs2 tmin2 tmax2 =
          trainCov (BiasV.arr ⟨1, W.cols, fun i j => W.entry i j⟩)
            s.zeropad s.direction stim2 resp2 fs2 tmin2 tmax2) := by
  by_cases hd : regNonDiagonal reg
  · simp [TRF.train, hd] at h
  · simp only [Bool.not_eq_true] at hd
    simp only [TRF.train, hd, Bool.false_eq_true, if_false] at h ⊢
    by_cases h0 : stim.d0 = 0
    · simp [h0] at h
    · simp only [h0, if_false] at h ⊢
      rcases hW : trainWeightMatrix s stim resp fs tmin tmax reg with _ | W
      · rw [hW] at h; simp at h
      · have hcols : W.cols = (if s.direction = 1 then resp else stim).d2 := by
          unfold trainWeightMatrix at hW
          rcases Option.map_eq_some'.mp hW with ⟨M, _, hM⟩
          rw [← hM]
          simp only [Mat.smul, Mat.mul]
          exact trainCov_xy_cols s.bias s.zeropad s.direction stim resp fs tmin tmax h0
        exact ⟨W, rfl, rfl, hcols, fun b => by simp, fun _ _ _ _ _ => rfl⟩

/-- A concrete single-trial input (2 samples, 1 stimulus feature). -/
def stimW : Tensor3 := ⟨1, 2, 1, fun _ i _ => if i = 0 then 1 else 2⟩

/-- A concrete single-trial output (2 samples, 1 response feature). -/
def respW : Tensor3 := ⟨1, 2, 1, fun _ i _ => if i = 0 then 1 else 0⟩

/-- The concrete training call on `stimW`/`respW` with unit ridge
regularization succeeds (the regularized system has determinant 3). -/
lemma trainW_succeeds :
    (TRF.train trfDefault stimW respW 1 0 0 (RegV.scalar 1)).2 = none := by
  norm_num +decide [TRF.train, trainWeightMatrix, trainCov, trainLags, trainLagBounds,
    lagListZ, covariance_matrices, lag_matrix, truncate, Mat.mul, Mat.add,
    Mat.transpose, Mat.smul, Mat.det, detAux, Mat.inv, regularization_matrix,
    regNonDiagonal, Tensor3.trial, Mat.zeros, List.range_succ, stimW, respW,
    trfDefault, Option.map, List.foldl]

/-- Witness for C2 at the concrete successful training call. -/
theorem train_weights_shape_w :
    (TRF.train trfDefault stimW respW 1 0 0 (RegV.scalar 1)).2 = none ∧
    ∃ w, (TRF.train trfDefault stimW respW 1 0 0 (RegV.scalar 1)).1.weights = some w ∧
      w.d1 = (trainLags trfDefault.direction 0 0 1).length ∧
      (trfDefault.direction = 1 → w.d0 = stimW.d2 ∧ w.d2 = respW.d2) ∧
      (trfDefault.direction = -1 → w.d0 = respW.d2 ∧ w.d2 = stimW.d2) :=
  ⟨trainW_succeeds,
    train_weights_shape trfDefault stimW respW 1 0 0 (RegV.scalar 1) trainW_succeeds⟩

/-- Witness for C10 at the concrete successful training call. -/
theorem train_bias_overwritten_w :
    (TRF.train trfDefault stimW respW 1 0 0 (RegV.scalar 1)).2 = none ∧
    ∃ W, trainWeightMatrix trfDefault stimW respW 1 0 0 (RegV.scalar 1) = some W ∧
      (TRF.train trfDefault stimW respW 1 0 0 (RegV.scalar 1)).1.bias =
        BiasV.arr ⟨1, W.cols, fun i j => W.entry i j⟩ ∧
      W.cols = (if trfDefault.direction = 1 then respW else stimW).d2 ∧
      (∀ b : Bool,
        (TRF.train trfDefault stimW respW 1 0 0 (RegV.scalar 1)).1.bias ≠ BiasV.flag b) ∧
      (∀ (stim2 resp2 : Tensor3) (fs2 tmin2 tmax2 : ℚ),
        trainCov (TRF.train trfDefault stimW respW 1 0 0 (RegV.scalar 1)).1.bias
            (TRF.train trfDefault stimW respW 1 0 0 (RegV.scalar 1)).1.zeropad
            (TRF.train trfDefault stimW respW 1 0 0 (RegV.scalar 1)).1.direction
            stim2 resp2 fs2 tmin2 tmax2 =
          trainCov (BiasV.arr ⟨1, W.cols, fun i j => W.entry i j⟩)
            trfDefault.zeropad trfDefault.direction stim2 resp2 fs2 tmin2 tmax2) :=
  ⟨trainW_succeeds,
    train_bias_overwritten trfDefault stimW respW 1 0 0 (RegV.scalar 1) trainW_succeeds⟩

/-- C4: the accumulated covariance pair entering the normal-equation
solve of `TRF.train` is the arithmetic mean over trials — each entry is
the sum of the per-trial covariance entries divided by the trial
count — so its scale does not depend on the number of trials. -/
theorem train_cov_trial_mean (bias : BiasV) (zp : Bool) (dir : ℤ)
    (stim resp : Tensor3) (fs tmin tmax : ℚ) (h0 : 0 < stim.d0) :
    (∀ i j, (trainCov bias zp dir stim resp fs tmin tmax).1.entry i j =
      ((List.range stim.d0).map (fun t =>
        (covariance_matrices ((if dir = 1 then stim else resp).trial t)
          ((if dir = 1 then resp else stim).trial t)
          (trainLags dir tmin tmax fs) zp bias).1.entry i j)).sum / stim.d0) ∧
    (∀ i j, (trainCov bias zp dir stim resp fs tmin tmax).2.entry i j =
      ((List.range stim.d0).map (fun t =>
        (covariance_matrices ((if dir = 1 then stim else resp).trial t)
          ((if dir = 1 then resp else stim).trial t)
          (trainLags dir tmin tmax fs) zp bias).2.entry i j)).sum / stim.d0) := by
  obtain ⟨n, hn⟩ : ∃ n, stim.d0 = n + 1 := ⟨stim.d0 - 1, by omega⟩
  unfold trainCov
  rw [hn, List.range_succ_eq_map]
  simp only [List.map_cons, List.headD_cons, List.tail_cons, Mat.smul, List.sum_cons,
    List.map_map]
  constructor <;> intro i j
  · rw [(foldl_addPair_entry _ _ i j).1, List.map_map, one_div, inv_mul_eq_div]
    rfl
  · rw [(foldl_addPair_entry _ _ i j).2, List.map_map, one_div, inv_mul_eq_div]
    rfl

/-- Witness for C4 at the concrete single-trial input, entry (0, 0). -/
theorem train_cov_trial_mean_w :
    0 < stimW.d0 ∧
    (trainCov (BiasV.flag true) true 1 stimW respW 1 0 0).1.entry 0 0 =
      ((List.range stimW.d0).map (fun t =>
        (covariance_matrices ((if (1 : ℤ) = 1 then stimW else respW).trial t)
          ((if (1 : ℤ) = 1 then respW else stimW).trial t)
          (trainLags 1 0 0 1) true (BiasV.flag true)).1.entry 0 0)).sum / stimW.d0 :=
  ⟨by decide,
    (train_cov_trial_mean (BiasV.flag true) true 1 stimW respW 1 0 0 (by decide)).1 0 0⟩

lemma getD_map_scalar (rs : List ℚ) (i : ℕ) (hi : i < rs.length) :
    (rs.map RegV.scalar).getD i (RegV.scalar 0) = RegV.scalar (rs.getD i 0) := by
  rw [List.getD_eq_getElem _ _ (by simpa using hi), List.getD_eq_getElem _ _ hi]
  simp

lemma train_scalar_sets_regularization (s : TRF) (stim resp : Tensor3)
    (fs tmin tmax q : ℚ) :
    (TRF.train s stim resp fs tmin tmax (RegV.scalar q)).1.regularization =
      some (RegV.scalar q) := by
  simp only [TRF.train, regNonDiagonal, Bool.false_eq_true, if_false]
  by_cases h0 : stim.d0 = 0
  · simp [h0]
  · simp only [h0, if_false]
    rcases trainWeightMatrix s stim resp fs tmin tmax (RegV.scalar q) with _ | W <;> simp

/-- C1: `TRF.fit` on a list of scalar regularization candidates returns a
correlation array and an error array of the candidate count's length,
selects the candidate at the first index of maximum correlation (ties
broken by first occurrence), performs the one final full-data training
with it, and the model's stored regularization afterwards is that
winning candidate. -/
theorem fit_selects_best_candidate (cv : RegV → ℚ × ℚ) (s : TRF)
    (stim resp : Tensor3) (fs tmin tmax : ℚ) (rs : List ℚ)
    (features : Option (List ℕ)) (hm : s.method ≠ "banded") (hn : 2 ≤ rs.length) :
    let corr := rs.map (fun q => (cv (RegV.scalar q)).1)
    let err := rs.map (fun q => (cv (RegV.scalar q)).2)
    let i := argmaxFirst corr
    let winner := RegV.scalar (rs.getD i 0)
    (TRF.train s stim resp fs tmin tmax winner).2 = none →
      (TRF.fit cv s stim resp fs tmin tmax (RegParam.list rs) features =
          .ok ((TRF.train s stim resp fs tmin tmax winner).1, some (corr, err)) ∧
        corr.length = rs.length ∧ err.length = rs.length ∧
        i < rs.length ∧
        (∀ j, j < rs.length → corr.getD j 0 ≤ corr.getD i 0) ∧
        (∀ j, j < i → corr.getD j 0 < corr.getD i 0) ∧
        (TRF.train s stim resp fs tmin tmax winner).1.regularization = some winner) := by
  intro corr err i winner hok
  have hcorr : ((rs.map RegV.scalar).map cv).map Prod.fst = corr := by
    simp only [List.map_map]; rfl
  have herr : ((rs.map RegV.scalar).map cv).map Prod.snd = err := by
    simp only [List.map_map]; rfl
  have hlen : corr.length = rs.length := by simp [corr]
  have hi : i < rs.length := by
    have hne : corr ≠ [] := by
      intro hnil
      rw [hnil] at hlen
      simp only [List.length_nil] at hlen
      omega
    have := argmaxFirst_lt_length corr hne
    omega
  have hwin : (rs.map RegV.scalar).getD (argmaxFirst corr) (RegV.scalar 0) = winner :=
    getD_map_scalar rs i hi
  refine ⟨?_, hlen, by simp [err], hi,
    fun j hj => argmaxFirst_max corr j (by omega),
    fun j hj => argmaxFirst_strict corr j hj,
    train_scalar_sets_regularization s stim resp fs tmin tmax (rs.getD i 0)⟩
  simp only [TRF.fit, hm, false_and, if_false]
  rw [hcorr, herr, hwin]
  rcases hT : TRF.train s stim resp fs tmin tmax winner with ⟨s', e⟩
  rw [hT] at hok
  simp only at hok
  subst hok
  simp [hT]

/-- A concrete stand-in cross-validator: scores a scalar candidate by its
own value. -/
def cvW : RegV → ℚ × ℚ := fun r =>
  match r with
  | RegV.scalar q => (q, q)
  | RegV.matrix _ => (0, 0)

/-- The concrete training call with regularization 5 succeeds
(determinant 11). -/
lemma trainW5_succeeds :
    (TRF.train trfDefault stimW respW 1 0 0 (RegV.scalar 5)).2 = none := by
  norm_num +decide [TRF.train, trainWeightMatrix, trainCov, trainLags, trainLagBounds,
    lagListZ, covariance_matrices, lag_matrix, truncate, Mat.mul, Mat.add,
    Mat.transpose, Mat.smul, Mat.det, detAux, Mat.inv, regularization_matrix,
    regNonDiagonal, Tensor3.trial, Mat.zeros, List.range_succ, stimW, respW,
    trfDefault, Option.map, List.foldl]

/-- Witness for C1: candidates [1, 5, 3], the middle one wins. -/
theorem fit_selects_best_candidate_w :
    trfDefault.method ≠ "banded" ∧ 2 ≤ ([1, 5, 3] : List ℚ).length ∧
    (TRF.train trfDefault stimW respW 1 0 0 (RegV.scalar 5)).2 = none ∧
    TRF.fit cvW trfDefault stimW respW 1 0 0 (RegParam.list [1, 5, 3]) none =
      .ok ((TRF.train trfDefault stimW respW 1 0 0 (RegV.scalar 5)).1,
        some ([1, 5, 3], [1, 5, 3])) := by
  have hm : trfDefault.method ≠ "banded" := by decide
  have hn : 2 ≤ ([1, 5, 3] : List ℚ).length := by simp
  have hcorr : ([1, 5, 3] : List ℚ).map (fun q => (cvW (RegV.scalar q)).1) = [1, 5, 3] := by
    simp [cvW]
  have herr : ([1, 5, 3] : List ℚ).map (fun q => (cvW (RegV.scalar q)).2) = [1, 5, 3] := by
    simp [cvW]
  have hmax : argmaxFirst ([1, 5, 3] : List ℚ) = 1 := by
    norm_num [argmaxFirst]
  have hwin5 : RegV.scalar (([1, 5, 3] : List ℚ).getD
      (argmaxFirst (([1, 5, 3] : List ℚ).map fun q => (cvW (RegV.scalar q)).1)) 0) =
      RegV.scalar 5 := by
    rw [hcorr, hmax]
    norm_num
  have hok : (TRF.train trfDefault stimW respW 1 0 0 (RegV.scalar
      (([1, 5, 3] : List ℚ).getD
        (argmaxFirst (([1, 5, 3] : List ℚ).map fun q => (cvW (RegV.scalar q)).1)) 0))).2
      = none := by
    rw [hwin5]
    exact trainW5_succeeds
  have h := (fit_selects_best_candidate cvW trfDefault stimW respW 1 0 0 [1, 5, 3]
    none hm hn) hok
  refine ⟨hm, hn, trainW5_succeeds, ?_⟩
  have h1 := h.1
  rw [hwin5, hcorr, herr] at h1
  exact h1

/-- A trained-looking forward model with lag window [0, 1] at fs = 1
(times 0s and 1s), parameterized by the zero-padding flag. -/
def s5 (zp : Bool) : TRF :=
  ⟨some ⟨1, 2, 1, fun _ _ _ => 1⟩, .arr ⟨1, 1, fun _ _ => 0⟩, some [0, 1],
    some 1, some (.scalar 1), 1, "multi", zp, "ridge"⟩

/-- A single held-out trial of 3 samples and 1 stimulus feature. -/
def stim5 : Tensor3 := ⟨1, 3, 1, fun _ _ _ => 1⟩

/-- C5: with zero-padding on, `TRF.predict` on a single trial of N
samples returns a prediction of shape (N, n_response_features); with
zero-padding off the code does not return the truncated shape — the
truncated `y_pred` cannot be assigned into the preallocated
`np.zeros((n_trials, N, n_out))` buffer, so the call raises a broadcast
error instead. -/
theorem predict_zeropad_shape_behavior :
    (TRF.predict (s5 true) (some stim5) none).map (List.map (fun m => (m.rows, m.cols))) =
      .ok [(3, 1)] ∧
    TRF.predict (s5 false) (some stim5) none = .error PyErr.broadcastError := by
  norm_num +decide [TRF.predict, s5, stim5, lagListZ, lag_matrix, truncate,
    reshape2F, Mat.vcat, Mat.smul, Mat.mul, Mat.transpose, Tensor3.trial,
    List.range_succ, Except.map]

end MTRF
